import Mathlib

/-!
Shallow embedding of the CTD 1D point-of-sale application (`1D.py`): an
in-memory product catalog with scarcity-based dynamic pricing, a cart whose
lines lock the unit price at add-time, a checkout that applies a compulsory
service charge and GST, and a cashier restock operation.

Python floats are modelled as exact rationals (`ℚ`); `round(x, 2)` is
modelled as half-up rounding to two decimal places (`round2` below), the
convention the repository's documentation states.  Stock counts are
modelled as `ℤ`, mirroring Python integers; the non-negativity that the
UI widgets enforce (`min_value=0` on quantity and restock inputs) is
carried as an explicit hypothesis or reachability invariant where needed.
-/

set_option maxRecDepth 8192

namespace CTD1D

/-- One catalog entry, mirroring the product dictionaries created in
`init_state`: `{"id", "name", "base", "stock_init", "stock_now"}`
(the image path is presentation-only and omitted). -/
structure Product where
  id : String
  name : String
  base : ℚ
  stock_init : ℤ
  stock_now : ℤ
  deriving Repr, DecidableEq

/-- One cart line, mirroring `{"id", "name", "unit", "qty"}` as appended by
`add_to_cart`. -/
structure CartLine where
  id : String
  name : String
  unit : ℚ
  qty : ℤ
  deriving Repr, DecidableEq

/-- An archival receipt, mirroring the dictionary built in
`finalize_checkout`. -/
structure Receipt where
  lines : List CartLine
  subtotal : ℚ
  service : ℚ
  gst : ℚ
  grand : ℚ
  deriving Repr, DecidableEq

/-- The whole `st.session_state`: `products`, `cart`, `orders`. -/
structure AppState where
  products : List Product
  cart : List CartLine
  orders : List Receipt
  deriving Repr, DecidableEq

/-- `SERVICE_RATE = 0.10`. -/
def SERVICE_RATE : ℚ := 10/100

/-- `GST_RATE = 0.09`. -/
def GST_RATE : ℚ := 9/100

/-- The seed catalog installed by `init_state`. -/
def init_products : List Product :=
  [⟨"umb_normal", "Normal Umbrella", 15, 40, 40⟩,
   ⟨"umb_love", "Love Umbrella", 20, 30, 30⟩,
   ⟨"umb_totoro", "Totoro Umbrella", 50, 10, 10⟩]

/-- The initial session state: seed products, empty cart, no orders. -/
def init_state : AppState := ⟨init_products, [], []⟩

/-- `remaining_ratio(p)` from the source: `0.0` when `stock_init <= 0`,
else `max(0.0, stock_now / stock_init)`. -/
def remaining_ratio (p : Product) : ℚ :=
  if p.stock_init ≤ 0 then 0
  else max 0 ((p.stock_now : ℚ) / (p.stock_init : ℚ))

/-- `avg_remaining_ratio(products)` from the source: `0.0` on an empty
list, else the arithmetic mean of the remaining ratios. -/
def avg_remaining_ratio (products : List Product) : ℚ :=
  if products = [] then 0
  else (products.map remaining_ratio).sum / (products.length : ℚ)

/-- `scarcity_delta(p, rbar) = rbar - remaining_ratio(p)`. -/
def scarcity_delta (p : Product) (rbar : ℚ) : ℚ :=
  rbar - remaining_ratio p

/-- `tiered_markup(delta)`: the piecewise markup table from the source,
evaluated as the same `if`/`elif` chain. -/
def tiered_markup (delta : ℚ) : ℚ :=
  if delta ≤ 0 then 5/100
  else if delta ≤ 10/100 then 8/100
  else if delta ≤ 20/100 then 12/100
  else if delta ≤ 30/100 then 17/100
  else 20/100

/-- Half-up rounding to two decimal places, the model of Python's
`round(x, 2)` on the exact rationals used throughout this file
(`round` in Mathlib is `⌊x + 1/2⌋`, i.e. half-up). -/
def round2 (x : ℚ) : ℚ := ((round (x * 100) : ℤ) : ℚ) / 100

/-- `effective_unit_price(p, rbar)` from the source:
`round(base * (1.0 + m), 2)` where `m = tiered_markup(scarcity_delta(p, rbar))`. -/
def effective_unit_price (p : Product) (rbar : ℚ) : ℚ :=
  round2 (p.base * (1 + tiered_markup (scarcity_delta p rbar)))

/-- `add_to_cart(prod_id, qty)` from the source, with the session state made
explicit: returns the new cart (the only piece of state the Python function
writes).  Mirrors the early `return`s for `qty <= 0`, an unknown id, and a
clamped quantity of `0`, and otherwise appends a line with the price locked
at the current catalog average. -/
def add_to_cart (products : List Product) (cart : List CartLine)
    (prod_id : String) (qty : ℤ) : List CartLine :=
  if qty ≤ 0 then cart
  else
    match products.find? (fun x => x.id == prod_id) with
    | none => cart
    | some p =>
      let q2 := min qty p.stock_now
      if q2 ≤ 0 then cart
      else
        let rbar := avg_remaining_ratio products
        let unit := effective_unit_price p rbar
        cart ++ [⟨p.id, p.name, unit, q2⟩]

/-- `compute_subtotal(cart)`: sum of `unit * qty` over the lines. -/
def compute_subtotal (cart : List CartLine) : ℚ :=
  (cart.map (fun item => item.unit * (item.qty : ℚ))).sum

/-- One step of the stock-reduction loop in `finalize_checkout`: find the
first product with the line's id and set its `stock_now` to
`max(0, stock_now - qty)`; do nothing when no product matches. -/
def decrement_stock : List Product → String → ℤ → List Product
  | [], _, _ => []
  | p :: ps, i, q =>
    if p.id = i then { p with stock_now := max 0 (p.stock_now - q) } :: ps
    else p :: decrement_stock ps i q

/-- The whole stock-reduction loop of `finalize_checkout`, one
`decrement_stock` per cart line, in order. -/
def reduce_stock (products : List Product) (cart : List CartLine) : List Product :=
  cart.foldl (fun ps item => decrement_stock ps item.id item.qty) products

/-- `finalize_checkout()` from the source, with the session state explicit:
returns the receipt (or `none` on an empty cart) together with the updated
state.  On a non-empty cart it first reduces stock, then computes the
totals, stores the four figures rounded to two decimals in the receipt,
archives the receipt and clears the cart. -/
def finalize_checkout (s : AppState) : Option Receipt × AppState :=
  if s.cart = [] then (none, s)
  else
    let products2 := reduce_stock s.products s.cart
    let subtotal := compute_subtotal s.cart
    let service := subtotal * SERVICE_RATE
    let taxable := subtotal + service
    let gst := taxable * GST_RATE
    let grand := taxable + gst
    let receipt : Receipt :=
      ⟨s.cart, round2 subtotal, round2 service, round2 gst, round2 grand⟩
    (some receipt, ⟨products2, [], s.orders ++ [receipt]⟩)

/-- The restock button handler from `cashier_dashboard`:
`p["stock_now"] += amt; p["stock_init"] += amt` on the product with the
given id, all other products and fields untouched. -/
def restock (products : List Product) (prod_id : String) (amt : ℤ) : List Product :=
  products.map (fun p =>
    if p.id = prod_id then
      { p with stock_now := p.stock_now + amt, stock_init := p.stock_init + amt }
    else p)

/-- The customer "Add to cart" interaction: only the cart changes. -/
def stepAdd (s : AppState) (i : String) (q : ℤ) : AppState :=
  { s with cart := add_to_cart s.products s.cart i q }

/-- The "Checkout" interaction: the state component of `finalize_checkout`. -/
def stepCheckout (s : AppState) : AppState :=
  (finalize_checkout s).2

/-- The cashier "Restock" interaction.  The amount comes from a
`st.number_input` with `min_value=0`, so it is a natural number. -/
def stepRestock (s : AppState) (i : String) (amt : ℕ) : AppState :=
  { s with products := restock s.products i (amt : ℤ) }

/-- Session states reachable from `init_state` by any sequence of
add-to-cart, checkout and restock interactions. -/
inductive Reachable : AppState → Prop
  | init : Reachable init_state
  | add (s : AppState) (i : String) (q : ℤ) :
      Reachable s → Reachable (stepAdd s i q)
  | checkout (s : AppState) :
      Reachable s → Reachable (stepCheckout s)
  | restock (s : AppState) (i : String) (amt : ℕ) :
      Reachable s → Reachable (stepRestock s i amt)

/-- Validation failures named by the specification's error taxonomy. -/
inductive ValidationError where
  | badQuantity
  | unknownItem
  | negativeRestock
  deriving Repr, DecidableEq

/-- The `add_line` contract as the specification words it (for comparison
with the code's `add_to_cart`): bad quantity and unknown item are
`ValidationError`s surfaced to the caller, clamp-to-zero is a silent
no-op success. -/
def add_line_spec (products : List Product) (cart : List CartLine)
    (item_id : String) (qty : ℤ) : Except ValidationError (List CartLine) :=
  if qty ≤ 0 then .error .badQuantity
  else
    match products.find? (fun x => x.id == item_id) with
    | none => .error .unknownItem
    | some p =>
      let q2 := min qty p.stock_now
      if q2 ≤ 0 then .ok cart
      else .ok (cart ++ [⟨p.id, p.name,
        effective_unit_price p (avg_remaining_ratio products), q2⟩])

/-- The `restock` contract as the specification words it (for comparison
with the code's `restock`): a negative amount is a `ValidationError`. -/
def restock_spec (products : List Product) (item_id : String) (amt : ℤ) :
    Except ValidationError (List Product) :=
  if amt < 0 then .error .negativeRestock
  else .ok (restock products item_id amt)

/-- Total quantity the cart orders of the item with the given id. -/
def sumQty (cart : List CartLine) (i : String) : ℤ :=
  (cart.map (fun l => if l.id = i then l.qty else 0)).sum

/-- The one-line cart used to separate the code's tax computation from the
claimed one: unit price 0.05, quantity 1. -/
def cexCart : List CartLine := [⟨"a", "a", 5/100, 1⟩]

/-- A one-line cart with subtotal 100, the spec's worked example. -/
def cart100 : List CartLine := [⟨"a", "a", 100, 1⟩]

/-- Claim C1: the markup function returns exactly the tier table value, with
boundary values belonging to the lower tier: `d ≤ 0` gives 5%,
`0 < d ≤ 0.10` gives 8%, `0.10 < d ≤ 0.20` gives 12%, `0.20 < d ≤ 0.30`
gives 17%, and `d > 0.30` gives 20%. -/
theorem tiered_markup_tiers (d : ℚ) :
    (d ≤ 0 → tiered_markup d = 5/100) ∧
    (0 < d → d ≤ 10/100 → tiered_markup d = 8/100) ∧
    (10/100 < d → d ≤ 20/100 → tiered_markup d = 12/100) ∧
    (20/100 < d → d ≤ 30/100 → tiered_markup d = 17/100) ∧
    (30/100 < d → tiered_markup d = 20/100) := by
  unfold tiered_markup
  refine ⟨?_, ?_, ?_, ?_, ?_⟩ <;> intros <;> split_ifs <;> first | rfl | linarith

/-- Witness for claim C1 at the boundaries: `Δ = 0` gives 5%, `Δ = 0.10`
gives 8% (not 12%), `Δ = 0.30` gives 17% (not 20%). -/
theorem tiered_markup_tiers_witness :
    tiered_markup 0 = 5/100 ∧ tiered_markup (10/100) = 8/100 ∧
      tiered_markup (30/100) = 17/100 :=
  ⟨(tiered_markup_tiers 0).1 le_rfl,
   (tiered_markup_tiers (10/100)).2.1 (by norm_num) le_rfl,
   (tiered_markup_tiers (30/100)).2.2.2.1 (by norm_num) le_rfl⟩

/-- Claim C3: for every item and average ratio, `effective_unit_price` is
the half-up two-decimal rounding (`⌊x·100 + 1/2⌋ / 100`) of
`base · (1 + markup(scarcity_delta))`, the rounding applied exactly once, at
this final step: the argument being rounded is the exact, unrounded
composition of markup and ratio. -/
theorem effective_unit_price_formula (p : Product) (rbar : ℚ) :
    effective_unit_price p rbar =
      ((⌊p.base * (1 + tiered_markup (scarcity_delta p rbar)) * 100 + 1/2⌋ : ℤ) : ℚ) / 100 := by
  rw [effective_unit_price, round2, round_eq]

/-- Claim C6: checkout on an empty cart returns no receipt and leaves the
whole session state (catalog, cart, order history) unchanged. -/
theorem finalize_checkout_empty (s : AppState) (h : s.cart = []) :
    (finalize_checkout s).1 = none ∧ (finalize_checkout s).2 = s := by
  simp [finalize_checkout, h]

/-- Witness for claim C6 at the initial state, whose cart is empty. -/
theorem finalize_checkout_empty_witness :
    (finalize_checkout init_state).1 = none ∧ (finalize_checkout init_state).2 = init_state :=
  finalize_checkout_empty init_state rfl

/-- Monotonicity of the tier table: a larger scarcity delta never gets a
smaller markup. -/
theorem tiered_markup_mono (d1 d2 : ℚ) (h : d1 ≤ d2) :
    tiered_markup d1 ≤ tiered_markup d2 := by
  unfold tiered_markup
  split_ifs <;> linarith

/-- Half-up rounding to two decimals is monotone. -/
theorem round2_mono (x y : ℚ) (h : x ≤ y) : round2 x ≤ round2 y := by
  unfold round2
  have hr : round (x * 100) ≤ round (y * 100) := by
    rw [round_eq, round_eq]
    exact Int.floor_mono (by linarith)
  exact (div_le_div_iff_of_pos_right (by norm_num : (0:ℚ) < 100)).mpr (by exact_mod_cast hr)

/-- Claim C8: for a fixed item with non-negative base price, the effective
unit price is monotonically non-decreasing in the scarcity delta. -/
theorem effective_unit_price_mono (p : Product) (r1 r2 : ℚ) (hb : 0 ≤ p.base)
    (h : scarcity_delta p r1 ≤ scarcity_delta p r2) :
    effective_unit_price p r1 ≤ effective_unit_price p r2 := by
  unfold effective_unit_price
  apply round2_mono
  have hm := tiered_markup_mono _ _ h
  exact mul_le_mul_of_nonneg_left (by linarith) hb

/-- Witness for claim C8: the seed Normal Umbrella, with the average ratio
moving from 0 (delta −1) to 1 (delta 0). -/
theorem effective_unit_price_mono_witness :
    effective_unit_price ⟨"umb_normal", "Normal Umbrella", 15, 40, 40⟩ 0 ≤
      effective_unit_price ⟨"umb_normal", "Normal Umbrella", 15, 40, 40⟩ 1 :=
  effective_unit_price_mono _ 0 1 (by norm_num) (by with_unfolding_all decide)

/-- The non-empty branch of `finalize_checkout`, written out. -/
theorem finalize_checkout_nonempty (s : AppState) (h : s.cart ≠ []) :
    finalize_checkout s =
      (some ⟨s.cart,
          round2 (compute_subtotal s.cart),
          round2 (compute_subtotal s.cart * SERVICE_RATE),
          round2 ((compute_subtotal s.cart + compute_subtotal s.cart * SERVICE_RATE) * GST_RATE),
          round2 (compute_subtotal s.cart + compute_subtotal s.cart * SERVICE_RATE
            + (compute_subtotal s.cart + compute_subtotal s.cart * SERVICE_RATE) * GST_RATE)⟩,
       ⟨reduce_stock s.products s.cart, [],
        s.orders ++ [⟨s.cart,
          round2 (compute_subtotal s.cart),
          round2 (compute_subtotal s.cart * SERVICE_RATE),
          round2 ((compute_subtotal s.cart + compute_subtotal s.cart * SERVICE_RATE) * GST_RATE),
          round2 (compute_subtotal s.cart + compute_subtotal s.cart * SERVICE_RATE
            + (compute_subtotal s.cart + compute_subtotal s.cart * SERVICE_RATE) * GST_RATE)⟩]⟩) := by
  rw [finalize_checkout, if_neg h]

/-- Counterexample to claim C2 as stated: on the one-line cart with unit
price 0.05, the code's receipt carries `gst = 0` (tax computed on the
unrounded `subtotal + subtotal·0.10` and only then rounded), while the
claimed chain `round2((subtotal + round2(subtotal·0.10))·0.09)` gives
0.01.  The code also re-rounds the grand total (receipt grand 0.06,
whereas the claimed unrounded `taxable + tax` composition gives 0.07). -/
theorem checkout_totals_claim_counterexample :
    (finalize_checkout ⟨[], cexCart, []⟩).1 = some ⟨cexCart, 5/100, 1/100, 0, 6/100⟩ ∧
    round2 ((compute_subtotal cexCart
      + round2 (compute_subtotal cexCart * SERVICE_RATE)) * GST_RATE) = 1/100 ∧
    (0 : ℚ) ≠ 1/100 := by
  refine ⟨?_, ?_, ?_⟩ <;> with_unfolding_all decide

/-- Amended claim C2: for every non-empty cart, checkout computes
`service = subtotal·0.10`, `taxable = subtotal + service`,
`tax = taxable·0.09`, `grand = taxable + tax`, all unrounded, and the
receipt stores each of the four figures independently rounded half-up to
two decimals (the grand total included). -/
theorem checkout_totals (s : AppState) (h : s.cart ≠ []) :
    (finalize_checkout s).1 =
      some ⟨s.cart,
        round2 (compute_subtotal s.cart),
        round2 (compute_subtotal s.cart * SERVICE_RATE),
        round2 ((compute_subtotal s.cart + compute_subtotal s.cart * SERVICE_RATE) * GST_RATE),
        round2 (compute_subtotal s.cart + compute_subtotal s.cart * SERVICE_RATE
          + (compute_subtotal s.cart + compute_subtotal s.cart * SERVICE_RATE) * GST_RATE)⟩ := by
  rw [finalize_checkout_nonempty s h]

/-- Witness for the amended claim C2 at the spec's worked example: a cart
with subtotal 100 yields service charge 10.00, tax 9.90 (charged on
subtotal + service), and grand total 119.90. -/
theorem checkout_totals_witness :
    (finalize_checkout ⟨init_products, cart100, []⟩).1 =
      some ⟨cart100,
        round2 (compute_subtotal cart100),
        round2 (compute_subtotal cart100 * SERVICE_RATE),
        round2 ((compute_subtotal cart100 + compute_subtotal cart100 * SERVICE_RATE) * GST_RATE),
        round2 (compute_subtotal cart100 + compute_subtotal cart100 * SERVICE_RATE
          + (compute_subtotal cart100 + compute_subtotal cart100 * SERVICE_RATE) * GST_RATE)⟩ ∧
    round2 (compute_subtotal cart100 * SERVICE_RATE) = 10 ∧
    round2 ((compute_subtotal cart100 + compute_subtotal cart100 * SERVICE_RATE) * GST_RATE) = 99/10 ∧
    round2 (compute_subtotal cart100 + compute_subtotal cart100 * SERVICE_RATE
      + (compute_subtotal cart100 + compute_subtotal cart100 * SERVICE_RATE) * GST_RATE) = 1199/10 :=
  ⟨checkout_totals ⟨init_products, cart100, []⟩ (by decide), by with_unfolding_all decide,
   by with_unfolding_all decide, by with_unfolding_all decide⟩

/-- Claim C10: the four receipt figures are a function of the cart lines
alone: two checkouts on identical carts yield identical figures, whatever
the two catalogs' stock states. -/
theorem receipt_figures_cart_determined (s1 s2 : AppState) (h : s1.cart = s2.cart)
    (r1 r2 : Receipt) (h1 : (finalize_checkout s1).1 = some r1)
    (h2 : (finalize_checkout s2).1 = some r2) :
    r1.subtotal = r2.subtotal ∧ r1.service = r2.service ∧
    r1.gst = r2.gst ∧ r1.grand = r2.grand := by
  have hc : s1.cart ≠ [] := by
    intro he
    rw [finalize_checkout, if_pos he] at h1
    exact Option.noConfusion h1
  rw [finalize_checkout_nonempty s1 hc, Option.some.injEq] at h1
  rw [finalize_checkout_nonempty s2 (h ▸ hc), Option.some.injEq] at h2
  subst h1
  subst h2
  simp [h]

/-- Witness for claim C10: the same one-line cart checked out against the
seed catalog and against an empty catalog produces the same four figures. -/
theorem receipt_figures_cart_determined_witness :
    ((finalize_checkout ⟨init_products, cart100, []⟩).1.getD ⟨[], 0, 0, 0, 0⟩).subtotal =
      ((finalize_checkout ⟨[], cart100, []⟩).1.getD ⟨[], 0, 0, 0, 0⟩).subtotal ∧
    ((finalize_checkout ⟨init_products, cart100, []⟩).1.getD ⟨[], 0, 0, 0, 0⟩).service =
      ((finalize_checkout ⟨[], cart100, []⟩).1.getD ⟨[], 0, 0, 0, 0⟩).service ∧
    ((finalize_checkout ⟨init_products, cart100, []⟩).1.getD ⟨[], 0, 0, 0, 0⟩).gst =
      ((finalize_checkout ⟨[], cart100, []⟩).1.getD ⟨[], 0, 0, 0, 0⟩).gst ∧
    ((finalize_checkout ⟨init_products, cart100, []⟩).1.getD ⟨[], 0, 0, 0, 0⟩).grand =
      ((finalize_checkout ⟨[], cart100, []⟩).1.getD ⟨[], 0, 0, 0, 0⟩).grand :=
  receipt_figures_cart_determined ⟨init_products, cart100, []⟩ ⟨[], cart100, []⟩ rfl
    _ _ (by with_unfolding_all decide) (by with_unfolding_all decide)

/-- The seed Normal Umbrella with its stock sold out, for exercising the
clamp-to-zero path of `add_to_cart`. -/
def soldOutProducts : List Product := [⟨"umb_normal", "Normal Umbrella", 15, 40, 0⟩]

/-- Counterexample to claim C4 as stated: `add_to_cart` never fails and
surfaces no `ValidationError` — it is a total function into carts.  On the
inputs the claim calls errors (quantity 0, unknown item id) it returns the
cart unchanged, exactly the same observable outcome as the input the claim
calls a non-error no-op (clamped quantity 0); the spec-worded contract
`add_line_spec` errors where the code returns an ordinary cart. -/
theorem add_to_cart_no_error_counterexample :
    add_line_spec init_products [] "umb_normal" 0 = .error .badQuantity ∧
    add_line_spec init_products [] "no_such_item" 3 = .error .unknownItem ∧
    add_to_cart init_products [] "umb_normal" 0 = [] ∧
    add_to_cart init_products [] "no_such_item" 3 = [] ∧
    add_to_cart soldOutProducts [] "umb_normal" 1 = [] ∧
    add_line_spec init_products [] "umb_normal" 0 ≠
      .ok (add_to_cart init_products [] "umb_normal" 0) := by
  have h1 : add_line_spec init_products [] "umb_normal" 0 = .error .badQuantity := rfl
  have h2 : add_line_spec init_products [] "no_such_item" 3 = .error .unknownItem := rfl
  refine ⟨h1, h2, by with_unfolding_all decide, by with_unfolding_all decide,
    by with_unfolding_all decide, ?_⟩
  intro h
  rw [h1] at h
  exact Except.noConfusion h

/-- Amended claim C4: `add_to_cart` silently returns the cart unchanged —
no error value or warning is produced — when the quantity is ≤ 0 or the
item id is unknown; when the requested quantity exceeds the item's current
stock the appended line's quantity is clamped down to exactly the pre-add
`stock_now` (never up, never negative); and when the clamped quantity is 0
no line is appended and no error occurs. -/
theorem add_to_cart_cases (products : List Product) (cart : List CartLine)
    (i : String) (q : ℤ) :
    (q ≤ 0 → add_to_cart products cart i q = cart) ∧
    (products.find? (fun x => x.id == i) = none → add_to_cart products cart i q = cart) ∧
    (∀ p, products.find? (fun x => x.id == i) = some p → 0 < q →
      (p.stock_now ≤ 0 → add_to_cart products cart i q = cart) ∧
      (0 < p.stock_now → p.stock_now ≤ q →
        add_to_cart products cart i q =
          cart ++ [⟨p.id, p.name,
            effective_unit_price p (avg_remaining_ratio products), p.stock_now⟩])) := by
  refine ⟨?_, ?_, ?_⟩
  · intro hq
    simp [add_to_cart, hq]
  · intro hf
    by_cases hq : q ≤ 0
    · simp [add_to_cart, hq]
    · simp [add_to_cart, hq, hf]
  · intro p hf hq
    have hq2 : ¬ q ≤ 0 := not_le.mpr hq
    constructor
    · intro hs
      have hm : min q p.stock_now ≤ 0 := le_trans (min_le_right _ _) hs
      simp [add_to_cart, hq2, hf, hm]
    · intro hs hle
      have hm : min q p.stock_now = p.stock_now := min_eq_right hle
      have hm2 : ¬ min q p.stock_now ≤ 0 := by rw [hm]; exact not_le.mpr hs
      simp [add_to_cart, hq2, hf, hm2, hm]
      exact hs

/-- Witness for the amended claim C4: requesting 100 Totoro umbrellas with
only 10 in stock appends one line with quantity exactly 10. -/
theorem add_to_cart_cases_witness :
    add_to_cart init_products [] "umb_totoro" 100 =
      [⟨"umb_totoro", "Totoro Umbrella",
        effective_unit_price ⟨"umb_totoro", "Totoro Umbrella", 50, 10, 10⟩
          (avg_remaining_ratio init_products), 10⟩] :=
  ((add_to_cart_cases init_products [] "umb_totoro" 100).2.2
      ⟨"umb_totoro", "Totoro Umbrella", 50, 10, 10⟩
      (by with_unfolding_all decide) (by norm_num)).2 (by norm_num) (by norm_num)

/-- Counterexample to claim C9 as stated: a negative restock amount is not
rejected with a `ValidationError` — the spec-worded contract errors on −1,
while the code's restock simply applies it, decrementing both stock fields
and failing in no way.  (In the application the widget's `min_value=0` is
what keeps negative amounts out, not a validation in the restock
mutation.) -/
theorem restock_negative_counterexample :
    restock_spec init_products "umb_normal" (-1) = .error .negativeRestock ∧
    restock init_products "umb_normal" (-1) =
      [⟨"umb_normal", "Normal Umbrella", 15, 39, 39⟩,
       ⟨"umb_love", "Love Umbrella", 20, 30, 30⟩,
       ⟨"umb_totoro", "Totoro Umbrella", 50, 10, 10⟩] ∧
    restock_spec init_products "umb_normal" (-1) ≠
      .ok (restock init_products "umb_normal" (-1)) := by
  have h1 : restock_spec init_products "umb_normal" (-1) = .error .negativeRestock := rfl
  refine ⟨h1, by with_unfolding_all decide, ?_⟩
  intro h
  rw [h1] at h
  exact Except.noConfusion h

/-- Amended claim C9: restock adds the amount to both `stock_now` and
`stock_init` of every product whose id matches, leaving all its other
fields and all other products unchanged; the mutation itself performs no
validation (negative amounts are excluded by the input widget, not by a
`ValidationError`). -/
theorem restock_pointwise (products : List Product) (i : String) (amt : ℤ)
    (k : ℕ) (hk : k < products.length) :
    (restock products i amt).length = products.length ∧
    (restock products i amt).get ⟨k, by simpa [restock] using hk⟩ =
      (if (products.get ⟨k, hk⟩).id = i
       then { products.get ⟨k, hk⟩ with
                stock_now := (products.get ⟨k, hk⟩).stock_now + amt,
                stock_init := (products.get ⟨k, hk⟩).stock_init + amt }
       else products.get ⟨k, hk⟩) := by
  constructor
  · simp [restock]
  · simp [restock]

/-- Witness for the amended claim C9: restocking 7 Love Umbrellas moves its
stocks from 30/30 to 37/37 while the list keeps its length; position 1 is
the Love Umbrella. -/
theorem restock_pointwise_witness :
    (restock init_products "umb_love" 7).length = init_products.length ∧
    (restock init_products "umb_love" 7).get ⟨1, by simpa [restock] using
        (by decide : 1 < init_products.length)⟩ =
      (if (init_products.get ⟨1, by decide⟩).id = "umb_love"
       then { init_products.get ⟨1, by decide⟩ with
                stock_now := (init_products.get ⟨1, by decide⟩).stock_now + 7,
                stock_init := (init_products.get ⟨1, by decide⟩).stock_init + 7 }
       else init_products.get ⟨1, by decide⟩) :=
  restock_pointwise init_products "umb_love" 7 1 (by decide)

/-- `decrement_stock` leaves the sequence of product ids unchanged. -/
theorem decrement_stock_map_id (ps : List Product) (i : String) (q : ℤ) :
    (decrement_stock ps i q).map Product.id = ps.map Product.id := by
  induction ps with
  | nil => rfl
  | cons p ps ih =>
    by_cases h : p.id = i
    · simp [decrement_stock, h]
    · simp [decrement_stock, h, ih]

/-- When no product in the list carries the id, the pointwise decrement is
the identity. -/
theorem map_dec_id_of_not_mem (ps : List Product) (i : String) (q : ℤ)
    (h : ∀ p ∈ ps, p.id ≠ i) :
    ps.map (fun p =>
      if p.id = i then { p with stock_now := max 0 (p.stock_now - q) } else p) = ps := by
  induction ps with
  | nil => rfl
  | cons p ps ih =>
    simp [if_neg (h p (List.mem_cons_self p ps)),
      ih (fun p2 hp2 => h p2 (List.mem_cons_of_mem p hp2))]

/-- With pairwise-distinct ids, the first-match `decrement_stock` is the
pointwise map that floors the matching product's stock. -/
theorem decrement_stock_eq_map (ps : List Product) (i : String) (q : ℤ)
    (h : (ps.map Product.id).Nodup) :
    decrement_stock ps i q =
      ps.map (fun p =>
        if p.id = i then { p with stock_now := max 0 (p.stock_now - q) } else p) := by
  induction ps with
  | nil => rfl
  | cons p ps ih =>
    simp only [List.map_cons, List.nodup_cons] at h
    by_cases hp : p.id = i
    · simp only [decrement_stock, if_pos hp, List.map_cons]
      rw [map_dec_id_of_not_mem ps i q]
      intro p2 hp2 he
      have : p.id ∈ ps.map Product.id := by
        rw [hp, ← he]
        exact List.mem_map_of_mem Product.id hp2
      exact h.1 this
    · simp only [decrement_stock, if_neg hp, List.map_cons]
      rw [ih h.2]

/-- `decrement_stock` keeps stocks non-negative. -/
theorem decrement_stock_nonneg (ps : List Product) (i : String) (q : ℤ)
    (h : ∀ p ∈ ps, 0 ≤ p.stock_now) :
    ∀ p ∈ decrement_stock ps i q, 0 ≤ p.stock_now := by
  induction ps with
  | nil => intro p hp; exact absurd hp (List.not_mem_nil p)
  | cons p ps ih =>
    intro p2 hp2
    by_cases hpi : p.id = i
    · simp only [decrement_stock, if_pos hpi] at hp2
      rcases List.mem_cons.mp hp2 with h1 | h1
      · rw [h1]
        exact le_max_left 0 _
      · exact h p2 (List.mem_cons_of_mem p h1)
    · simp only [decrement_stock, if_neg hpi] at hp2
      rcases List.mem_cons.mp hp2 with h1 | h1
      · rw [h1]
        exact h p (List.mem_cons_self p ps)
      · exact ih (fun p3 hp3 => h p3 (List.mem_cons_of_mem p hp3)) p2 h1

/-- The quantity a cart orders of an id is non-negative when every line
quantity is. -/
theorem sumQty_nonneg (cart : List CartLine) (i : String)
    (h : ∀ l ∈ cart, 0 ≤ l.qty) : 0 ≤ sumQty cart i := by
  unfold sumQty
  apply List.sum_nonneg
  intro x hx
  simp only [List.mem_map] at hx
  obtain ⟨l, hl, rfl⟩ := hx
  by_cases hli : l.id = i
  · simpa [hli] using h l hl
  · simp [hli]

/-- Unfolding `sumQty` one line at a time. -/
theorem sumQty_cons (l : CartLine) (ls : List CartLine) (i : String) :
    sumQty (l :: ls) i = (if l.id = i then l.qty else 0) + sumQty ls i := by
  simp [sumQty]

/-- Flooring at zero twice, subtracting in two steps, is flooring once on
the total, as long as the second subtrahend is non-negative. -/
theorem max_zero_sub_sub (a b c : ℤ) (hc : 0 ≤ c) :
    max 0 (max 0 (a - b) - c) = max 0 (a - (b + c)) := by
  omega

/-- Subtracting the empty cart's (zero) quantity and flooring is the
identity on non-negative stocks. -/
theorem map_floor_id (ps : List Product) (hs : ∀ p ∈ ps, 0 ≤ p.stock_now) :
    ps.map (fun p => { p with stock_now := max 0 (p.stock_now - sumQty [] p.id) }) = ps := by
  induction ps with
  | nil => rfl
  | cons p ps ih =>
    have h1 : (0:ℤ) ≤ p.stock_now := hs p (List.mem_cons_self p ps)
    have h2 : max 0 (p.stock_now - sumQty [] p.id) = p.stock_now := by
      have h3 : sumQty [] p.id = 0 := rfl
      rw [h3]
      omega
    simp only [List.map_cons, h2, ih (fun p2 hp2 => hs p2 (List.mem_cons_of_mem p hp2))]

/-- The per-line stock-reduction loop of checkout equals, per item, a single
decrement by the cart's total quantity for that item, floored at zero:
assuming pairwise-distinct catalog ids, non-negative line quantities and
non-negative stocks. -/
theorem reduce_stock_eq (lines : List CartLine) (ps : List Product)
    (hn : (ps.map Product.id).Nodup)
    (hq : ∀ l ∈ lines, 0 ≤ l.qty)
    (hs : ∀ p ∈ ps, 0 ≤ p.stock_now) :
    reduce_stock ps lines =
      ps.map (fun p => { p with stock_now := max 0 (p.stock_now - sumQty lines p.id) }) := by
  induction lines generalizing ps with
  | nil =>
    simp only [reduce_stock, List.foldl_nil]
    exact (map_floor_id ps hs).symm
  | cons l ls ih =>
    have hq0 : (0:ℤ) ≤ l.qty := hq l (List.mem_cons_self l ls)
    have hqls : ∀ l2 ∈ ls, (0:ℤ) ≤ l2.qty :=
      fun l2 h2 => hq l2 (List.mem_cons_of_mem l h2)
    have step : reduce_stock ps (l :: ls) =
        reduce_stock (decrement_stock ps l.id l.qty) ls := rfl
    rw [step]
    rw [ih (decrement_stock ps l.id l.qty)
      (by rw [decrement_stock_map_id]; exact hn) hqls
      (decrement_stock_nonneg ps l.id l.qty hs)]
    rw [decrement_stock_eq_map ps l.id l.qty hn, List.map_map]
    apply List.map_congr_left
    intro p hp
    have hnn : (0:ℤ) ≤ sumQty ls p.id := sumQty_nonneg ls p.id hqls
    by_cases hpl : p.id = l.id
    · have hsum : sumQty (l :: ls) p.id = l.qty + sumQty ls p.id := by
        rw [sumQty_cons, if_pos hpl.symm]
      simp only [Function.comp_apply, if_pos hpl, hsum]
      simp only [max_zero_sub_sub p.stock_now l.qty (sumQty ls p.id) hnn]
    · have hsum : sumQty (l :: ls) p.id = sumQty ls p.id := by
        rw [sumQty_cons, if_neg (fun he => hpl he.symm), zero_add]
      simp only [Function.comp_apply, if_neg hpl, hsum]

/-- Claim C5: adding to the cart never touches the catalog, and checkout
rewrites every item's `stock_now` to the old value minus the total cart
quantity for that item, floored at zero (under the catalog data-model
invariants: distinct ids, non-negative line quantities and stocks). -/
theorem stock_mutation (s : AppState) (i : String) (q : ℤ)
    (hn : (s.products.map Product.id).Nodup)
    (hq : ∀ l ∈ s.cart, 0 ≤ l.qty)
    (hs : ∀ p ∈ s.products, 0 ≤ p.stock_now) :
    (stepAdd s i q).products = s.products ∧
    (stepCheckout s).products =
      s.products.map (fun p =>
        { p with stock_now := max 0 (p.stock_now - sumQty s.cart p.id) }) := by
  constructor
  · rfl
  · by_cases hc : s.cart = []
    · rw [stepCheckout, finalize_checkout, if_pos hc, hc]
      exact (map_floor_id s.products hs).symm
    · rw [stepCheckout, finalize_checkout_nonempty s hc]
      exact reduce_stock_eq s.cart s.products hn hq hs

/-- The seed catalog with a cart over-ordering the Totoro umbrella
(4 + 8 = 12 requested against 10 in stock). -/
def overState : AppState :=
  ⟨init_products,
   [⟨"umb_totoro", "Totoro Umbrella", 105/2, 4⟩,
    ⟨"umb_totoro", "Totoro Umbrella", 105/2, 8⟩], []⟩

/-- Witness for claim C5: on `overState` the add leaves the catalog alone
and checkout floors the Totoro stock at zero. -/
theorem stock_mutation_witness :
    (stepAdd overState "umb_love" 3).products = overState.products ∧
    (stepCheckout overState).products =
      overState.products.map (fun p =>
        { p with stock_now := max 0 (p.stock_now - sumQty overState.cart p.id) }) :=
  stock_mutation overState "umb_love" 3 (by with_unfolding_all decide)
    (by with_unfolding_all decide) (by with_unfolding_all decide)

/-- Either `add_to_cart` returns the cart unchanged or it appends exactly
one line whose quantity is the positive clamped quantity. -/
theorem add_to_cart_shape (products : List Product) (cart : List CartLine)
    (i : String) (q : ℤ) :
    add_to_cart products cart i q = cart ∨
    ∃ p : Product, 0 < min q p.stock_now ∧
      add_to_cart products cart i q =
        cart ++ [⟨p.id, p.name, effective_unit_price p (avg_remaining_ratio products),
                  min q p.stock_now⟩] := by
  unfold add_to_cart
  by_cases hq : q ≤ 0
  · left
    simp [hq]
  · simp only [if_neg hq]
    cases hf : products.find? (fun x => x.id == i) with
    | none => left; rfl
    | some p =>
      by_cases hm : min q p.stock_now ≤ 0
      · left
        simp [hm]
      · right
        exact ⟨p, not_le.mp hm, by simp [hm]⟩

/-- `add_to_cart` only ever appends lines with positive quantity. -/
theorem add_to_cart_qty_pos (products : List Product) (cart : List CartLine)
    (i : String) (q : ℤ) (h : ∀ l ∈ cart, 0 < l.qty) :
    ∀ l ∈ add_to_cart products cart i q, 0 < l.qty := by
  intro l hl
  rcases add_to_cart_shape products cart i q with he | ⟨p, hpos, he⟩
  · rw [he] at hl
    exact h l hl
  · rw [he] at hl
    rcases List.mem_append.mp hl with h1 | h1
    · exact h l h1
    · rcases List.mem_singleton.mp h1 with rfl
      exact hpos

/-- `decrement_stock` with a non-negative quantity preserves
`0 ≤ stock_now ≤ stock_init`. -/
theorem decrement_stock_inv (ps : List Product) (i : String) (q : ℤ) (hq : 0 ≤ q)
    (h : ∀ p ∈ ps, 0 ≤ p.stock_now ∧ p.stock_now ≤ p.stock_init) :
    ∀ p ∈ decrement_stock ps i q, 0 ≤ p.stock_now ∧ p.stock_now ≤ p.stock_init := by
  induction ps with
  | nil => intro p hp; exact absurd hp (List.not_mem_nil p)
  | cons p ps ih =>
    intro p2 hp2
    by_cases hpi : p.id = i
    · simp only [decrement_stock, if_pos hpi] at hp2
      rcases List.mem_cons.mp hp2 with h1 | h1
      · have h2 := h p (List.mem_cons_self p ps)
        rw [h1]
        refine ⟨le_max_left 0 _, ?_⟩
        have h3 := h2.1
        have h4 := h2.2
        simp only
        omega
      · exact h p2 (List.mem_cons_of_mem p h1)
    · simp only [decrement_stock, if_neg hpi] at hp2
      rcases List.mem_cons.mp hp2 with h1 | h1
      · rw [h1]
        exact h p (List.mem_cons_self p ps)
      · exact ih (fun p3 hp3 => h p3 (List.mem_cons_of_mem p hp3)) p2 h1

/-- The whole checkout stock loop preserves `0 ≤ stock_now ≤ stock_init`
when all line quantities are non-negative. -/
theorem reduce_stock_inv (lines : List CartLine) (ps : List Product)
    (hq : ∀ l ∈ lines, 0 ≤ l.qty)
    (h : ∀ p ∈ ps, 0 ≤ p.stock_now ∧ p.stock_now ≤ p.stock_init) :
    ∀ p ∈ reduce_stock ps lines, 0 ≤ p.stock_now ∧ p.stock_now ≤ p.stock_init := by
  induction lines generalizing ps with
  | nil => exact h
  | cons l ls ih =>
    exact ih (decrement_stock ps l.id l.qty)
      (fun l2 h2 => hq l2 (List.mem_cons_of_mem l h2))
      (decrement_stock_inv ps l.id l.qty (hq l (List.mem_cons_self l ls)) h)

/-- Restocking a natural amount preserves `0 ≤ stock_now ≤ stock_init`. -/
theorem restock_inv (ps : List Product) (i : String) (amt : ℕ)
    (h : ∀ p ∈ ps, 0 ≤ p.stock_now ∧ p.stock_now ≤ p.stock_init) :
    ∀ p ∈ restock ps i (amt : ℤ), 0 ≤ p.stock_now ∧ p.stock_now ≤ p.stock_init := by
  intro p2 hp2
  simp only [restock, List.mem_map] at hp2
  obtain ⟨p, hp, rfl⟩ := hp2
  have h1 := h p hp
  by_cases hpi : p.id = i
  · simp only [if_pos hpi]
    have h2 := h1.1
    have h3 := h1.2
    refine ⟨?_, ?_⟩ <;> omega
  · simp only [if_neg hpi]
    exact h1

/-- The inductive session invariant: every product keeps
`0 ≤ stock_now ≤ stock_init` and every cart line has positive quantity. -/
def StockInv (s : AppState) : Prop :=
  (∀ p ∈ s.products, 0 ≤ p.stock_now ∧ p.stock_now ≤ p.stock_init) ∧
  (∀ l ∈ s.cart, 0 < l.qty)

/-- Every reachable session state satisfies the stock invariant. -/
theorem reachable_stockInv (s : AppState) (h : Reachable s) : StockInv s := by
  induction h with
  | init =>
    constructor
    · intro p hp
      simp only [init_state, init_products, List.mem_cons, List.not_mem_nil, or_false] at hp
      rcases hp with rfl | rfl | rfl <;> exact ⟨by norm_num, by norm_num⟩
    · intro l hl
      exact absurd hl (List.not_mem_nil l)
  | add s i q hR ih =>
    obtain ⟨hp, hc⟩ := ih
    exact ⟨hp, add_to_cart_qty_pos s.products s.cart i q hc⟩
  | checkout s hR ih =>
    obtain ⟨hp, hc⟩ := ih
    by_cases hce : s.cart = []
    · constructor
      · intro p hpe
        simp only [stepCheckout, finalize_checkout, if_pos hce] at hpe
        exact hp p hpe
      · intro l hl
        simp only [stepCheckout, finalize_checkout, if_pos hce] at hl
        exact hc l hl
    · constructor
      · intro p hpe
        simp only [stepCheckout, finalize_checkout_nonempty s hce] at hpe
        exact reduce_stock_inv s.cart s.products (fun l hl => (hc l hl).le) hp p hpe
      · intro l hl
        simp only [stepCheckout, finalize_checkout_nonempty s hce] at hl
        exact absurd hl (List.not_mem_nil l)
  | restock s i amt hR ih =>
    obtain ⟨hp, hc⟩ := ih
    exact ⟨restock_inv s.products i amt hp, hc⟩

/-- Claim C7: in every session state reachable from initialization by any
sequence of add-to-cart, checkout and restock interactions, every item's
remaining ratio lies between 0 and 1. -/
theorem remaining_ratio_bounds (s : AppState) (h : Reachable s)
    (p : Product) (hp : p ∈ s.products) :
    0 ≤ remaining_ratio p ∧ remaining_ratio p ≤ 1 := by
  obtain ⟨hinv, _⟩ := reachable_stockInv s h
  obtain ⟨h0, h1⟩ := hinv p hp
  unfold remaining_ratio
  by_cases hi : p.stock_init ≤ 0
  · simp [hi]
  · simp only [if_neg hi]
    have hipos : (0:ℚ) < (p.stock_init : ℚ) := by
      exact_mod_cast not_le.mp hi
    refine ⟨le_max_left 0 _, max_le (by norm_num) ?_⟩
    rw [div_le_one hipos]
    exact_mod_cast h1

/-- Witness for claim C7 at the initial state's first product. -/
theorem remaining_ratio_bounds_witness :
    0 ≤ remaining_ratio ⟨"umb_normal", "Normal Umbrella", 15, 40, 40⟩ ∧
    remaining_ratio ⟨"umb_normal", "Normal Umbrella", 15, 40, 40⟩ ≤ 1 :=
  remaining_ratio_bounds init_state Reachable.init _ (by with_unfolding_all decide)

end CTD1D

